import Mathlib

/-!
Verification of the interest-calculator core of `src/app/index.tsx`.

The development shallowly embeds the logic of the source file:

* `formatDateInput`   — the date-text normalizer (source lines 47-58);
* `parseDateString`   — the `DD/MM/YYYY` parser (source lines 25-36);
* `calculateInterest` — validation and interest computation (lines 60-115).

Host-language (JavaScript) primitives used by those functions are embedded
faithfully from their ECMAScript semantics:

* `js_parseFloat` / `js_parseInt` — longest-valid-prefix numeric parsing,
  including the `Infinity` literal, sign handling, exponents, and the
  hexadecimal `0x` prefix of `parseInt`;
* JS numbers are modelled by `JSNum`: `NaN`, the two infinities, and finite
  values as exact rationals.  IEEE-754 round-to-nearest on mid-range finite
  doubles is not modelled, but overflow to the infinities and underflow to
  zero are: `clampDouble` is applied when a literal is parsed and again
  after every multiplication and division (so `1e308 * 3` is `Infinity`, as
  on doubles), since the output strings of the program distinguish those
  cases.  `toFixed(2)` includes the ECMAScript fallback to `ToString`
  (exponent notation) for magnitudes from 1e21 up.
* `new Date(y, m, d)` is modelled by `jsNewDate`: the two-digit-year remap,
  `MakeDay` month/day overflow normalization (via the standard civil-calendar
  day-number algorithms), and the `TimeClip` range check.  A date value is its
  civil day number; local midnight with a fixed UTC offset is assumed (the
  spec fixes IST, a zone without daylight saving), so time-of-day and
  DST are not modelled and differences of dates are whole days.
-/

attribute [local semireducible] Rat.mul Rat.add Rat.sub Rat.inv Rat.ofScientific

set_option maxRecDepth 40000

/-! ## JavaScript numbers -/

/-- A JavaScript number: `NaN`, an infinity, or a finite value.  Finite
values are exact rationals; see the header for what is and is not modelled. -/
inductive JSNum where
  | nan : JSNum
  | posInf : JSNum
  | negInf : JSNum
  | num : ℚ → JSNum
deriving DecidableEq, Repr

/-- Smallest positive rational that does not round to `+0.` as a double
(half of the least subnormal; the tie itself rounds to even, that is to 0). -/
def minDoubleThreshold : ℚ := 1 / ((2 ^ 1075 : ℕ) : ℚ)

/-- Least positive rational that rounds to `Infinity` as a double. -/
def maxDoubleThreshold : ℚ := ((2 ^ 1024 - 2 ^ 970 : ℕ) : ℚ)

/-- Conversion of an exact rational to a JS double, modelling only overflow
to the infinities and underflow to zero (mid-range rounding is ignored). -/
def clampDouble (q : ℚ) : JSNum :=
  if maxDoubleThreshold ≤ q then .posInf
  else if q ≤ -maxDoubleThreshold then .negInf
  else if -minDoubleThreshold ≤ q ∧ q ≤ minDoubleThreshold then .num 0
  else .num q

/-- JS multiplication on `JSNum` (sign rules of IEEE-754, `∞ * 0 = NaN`).
A finite product is converted back to a double by `clampDouble`: products at
or beyond the overflow threshold become the infinities, exactly as IEEE
doubles overflow (for example `1e308 * 3 = Infinity`). -/
def jsMul : JSNum → JSNum → JSNum
  | .nan, _ => .nan
  | _, .nan => .nan
  | .num a, .num b => clampDouble (a * b)
  | .posInf, .posInf => .posInf
  | .posInf, .negInf => .negInf
  | .negInf, .posInf => .negInf
  | .negInf, .negInf => .posInf
  | .posInf, .num b => if b = 0 then .nan else if 0 < b then .posInf else .negInf
  | .num a, .posInf => if a = 0 then .nan else if 0 < a then .posInf else .negInf
  | .negInf, .num b => if b = 0 then .nan else if 0 < b then .negInf else .posInf
  | .num a, .negInf => if a = 0 then .nan else if 0 < a then .negInf else .posInf

/-- JS division on `JSNum` (used by the source only with the positive finite
divisor `100 * 365`; signed zeros are not modelled).  A finite quotient is
converted back to a double by `clampDouble`, like the product in `jsMul`. -/
def jsDiv : JSNum → JSNum → JSNum
  | .nan, _ => .nan
  | _, .nan => .nan
  | .posInf, .posInf => .nan
  | .posInf, .negInf => .nan
  | .negInf, .posInf => .nan
  | .negInf, .negInf => .nan
  | .posInf, .num b => if 0 ≤ b then .posInf else .negInf
  | .negInf, .num b => if 0 ≤ b then .negInf else .posInf
  | .num _, .posInf => .num 0
  | .num _, .negInf => .num 0
  | .num a, .num b =>
    if b = 0 then (if a = 0 then .nan else if 0 < a then .posInf else .negInf)
    else clampDouble (a / b)

/-- JS truthiness test, negated: `!x` for a number `x` (`NaN` and `0` are falsy). -/
def jsFalsy : JSNum → Bool
  | .nan => true
  | .num q => q = 0
  | _ => false

/-- JS `isNaN(x)` for a number `x`. -/
def jsIsNaN : JSNum → Bool
  | .nan => true
  | _ => false

/-- The JS comparison `x <= 0` (`false` on `NaN`). -/
def jsLeZero : JSNum → Bool
  | .nan => false
  | .posInf => false
  | .negInf => true
  | .num q => q ≤ 0

/-! ## Characters, digit strings, whitespace -/

/-- Value of a decimal digit character. -/
def digitVal (c : Char) : ℕ := c.toNat - '0'.toNat

/-- Natural number denoted by a list of decimal digit characters. -/
def natFromDigits (l : List Char) : ℕ := l.foldl (fun a c => 10 * a + digitVal c) 0

/-- Hexadecimal digit test. -/
def isHexDigit (c : Char) : Bool :=
  c.isDigit || ('a' ≤ c && c ≤ 'f') || ('A' ≤ c && c ≤ 'F')

/-- Value of a hexadecimal digit character. -/
def hexVal (c : Char) : ℕ :=
  if c.isDigit then digitVal c
  else if 'a' ≤ c ∧ c ≤ 'f' then c.toNat - 'a'.toNat + 10
  else c.toNat - 'A'.toNat + 10

/-- Natural number denoted by a list of hexadecimal digit characters. -/
def natFromHexDigits (l : List Char) : ℕ := l.foldl (fun a c => 16 * a + hexVal c) 0

/-- ASCII JS whitespace (the Unicode space characters JS additionally skips
are not modelled; no claim depends on them). -/
def jsWs (c : Char) : Bool :=
  c = ' ' || c = '\t' || c = '\n' || c = '\r' || c = '\x0b' || c = '\x0c'

/-- Embedding of `String.prototype.trim`, on character lists. -/
def jsTrim (l : List Char) : List Char :=
  ((l.dropWhile jsWs).reverse.dropWhile jsWs).reverse

/-- Embedding of the JS split on the slash character, on character lists. -/
def splitSlash : List Char → List (List Char)
  | [] => [[]]
  | c :: rest =>
    if c = '/' then [] :: splitSlash rest
    else
      match splitSlash rest with
      | [] => [[c]]
      | p :: ps => (c :: p) :: ps

/-! ## `parseInt` and `parseFloat` -/

/-- Sign prefix handling shared by `parseInt` and `parseFloat`: returns the
sign and the remaining characters. -/
def signSplit (l : List Char) : ℤ × List Char :=
  match l with
  | '+' :: r => (1, r)
  | '-' :: r => (-1, r)
  | _ => (1, l)

/-- Embedding of `parseInt(s)` with the default radix: skip whitespace, optional sign,
then either a `0x`/`0X` hexadecimal literal or a longest run of decimal
digits; `none` models `NaN`.  (The rounding of more than 15-16 significant
digits to a double is not modelled; every claim involving `parseInt` goes
through the date-range check, which rejects such magnitudes anyway.) -/
def js_parseIntL (l0 : List Char) : Option ℤ :=
  let l1 := l0.dropWhile jsWs
  let s := signSplit l1
  match s.2 with
  | '0' :: c :: r =>
    if c = 'x' ∨ c = 'X' then
      let d := r.takeWhile isHexDigit
      if d = [] then none else some (s.1 * (natFromHexDigits d : ℤ))
    else
      let d := ('0' :: c :: r).takeWhile Char.isDigit
      if d = [] then none else some (s.1 * (natFromDigits d : ℤ))
  | l2 =>
    let d := l2.takeWhile Char.isDigit
    if d = [] then none else some (s.1 * (natFromDigits d : ℤ))

/-- Embedding of `parseInt` on strings. -/
def js_parseInt (s : String) : Option ℤ := js_parseIntL s.data

/-- The characters of the `Infinity` literal. -/
def infinityChars : List Char := ['I', 'n', 'f', 'i', 'n', 'i', 't', 'y']

/-- The exponent part of a decimal literal, given the characters after the
`e`/`E`: an optional sign and a run of digits; `0` when no digit follows
(in that case `parseFloat` stops before the `e`, which yields the same
value since the mantissa is then multiplied by `10 ^ 0`). -/
def expPart (l : List Char) : ℤ :=
  match l with
  | '+' :: r =>
    let d := r.takeWhile Char.isDigit
    if d = [] then 0 else (natFromDigits d : ℤ)
  | '-' :: r =>
    let d := r.takeWhile Char.isDigit
    if d = [] then 0 else -(natFromDigits d : ℤ)
  | l2 =>
    let d := l2.takeWhile Char.isDigit
    if d = [] then 0 else (natFromDigits d : ℤ)

/-- Scale a rational by a power of ten (the exponent of a decimal literal). -/
def applyExp (q : ℚ) (e : ℤ) : ℚ :=
  if 0 ≤ e then q * ((10 ^ e.toNat : ℕ) : ℚ) else q / ((10 ^ (-e).toNat : ℕ) : ℚ)

/-- Embedding of `parseFloat(s)`: skip whitespace, optional sign, then the longest prefix
that is a decimal literal (`Infinity`, or digits with optional fraction and
exponent); `NaN` when there is none.  The exact rational value of the
literal is converted to a double by `clampDouble`. -/
def js_parseFloatL (l0 : List Char) : JSNum :=
  let l1 := l0.dropWhile jsWs
  let s := signSplit l1
  if s.2.take 8 = infinityChars then (if s.1 = 1 then .posInf else .negInf)
  else
    let intD := s.2.takeWhile Char.isDigit
    let r1 := s.2.drop intD.length
    let fracD := match r1 with
      | '.' :: r => r.takeWhile Char.isDigit
      | _ => []
    let r2 := match r1 with
      | '.' :: r => r.drop (r.takeWhile Char.isDigit).length
      | _ => r1
    if intD = [] ∧ fracD = [] then .nan
    else
      let e : ℤ := match r2 with
        | 'e' :: r => expPart r
        | 'E' :: r => expPart r
        | _ => 0
      let mantissa : ℚ :=
        (natFromDigits intD : ℚ) + (natFromDigits fracD : ℚ) / ((10 ^ fracD.length : ℕ) : ℚ)
      clampDouble ((s.1 : ℚ) * applyExp mantissa e)

/-- Embedding of `parseFloat` on strings. -/
def js_parseFloat (s : String) : JSNum := js_parseFloatL s.data

/-! ## The JS `Date` model -/

/-- Day number (days since 1970-01-01) of the first day of month `m` of year
`y`, for `m ∈ [1, 12]` (standard civil-from-days companion algorithm). -/
def daysFromCivil (y m : ℤ) : ℤ :=
  let y2 := if m ≤ 2 then y - 1 else y
  let era := Int.fdiv y2 400
  let yoe := y2 - era * 400
  let mp := Int.emod (m + 9) 12
  let doy := (153 * mp + 2) / 5
  let doe := yoe * 365 + yoe / 4 - yoe / 100 + doy
  era * 146097 + doe - 719468

/-- Civil (year, month, day) of a day number, month in `[1, 12]`
(standard algorithm; inverse of `daysFromCivil` extended by day-of-month). -/
def civilFromDays (z0 : ℤ) : ℤ × ℤ × ℤ :=
  let z := z0 + 719468
  let era := Int.fdiv z 146097
  let doe := z - era * 146097
  let yoe := (doe - doe / 1460 + doe / 36524 - doe / 146096) / 365
  let y := yoe + era * 400
  let doy := doe - (365 * yoe + yoe / 4 - yoe / 100)
  let mp := (5 * doy + 2) / 153
  let d := doy - (153 * mp + 2) / 5 + 1
  let m := if mp < 10 then mp + 3 else mp - 9
  (if m ≤ 2 then y + 1 else y, m, d)

/-- Embedding of `Date.prototype.getFullYear` of a date held as a day number. -/
def getFullYear (d : ℤ) : ℤ := (civilFromDays d).1

/-- Embedding of `Date.prototype.getMonth` (zero-based month index). -/
def getMonth (d : ℤ) : ℤ := (civilFromDays d).2.1 - 1

/-- Embedding of `Date.prototype.getDate` (day of month). -/
def getDate (d : ℤ) : ℤ := (civilFromDays d).2.2

/-- The two-digit-year remap of the `Date` constructor: an integer year in
`[0, 99]` denotes `1900 + year`. -/
def jsYearRemap (y : ℤ) : ℤ := if 0 ≤ y ∧ y ≤ 99 then 1900 + y else y

/-- Embedding of `new Date(year, month, day)` as a day number: `none` models an invalid
date (`NaN` time value).  Follows ECMAScript `MakeDay` (month overflow into
the year, arbitrary day offset from the first of the month) and `TimeClip`
(at most 8.64e15 ms, that is 1e8 days, from the epoch). -/
def jsNewDate (year month day : Option ℤ) : Option ℤ :=
  match year, month, day with
  | some y, some m, some d =>
    let yr := jsYearRemap y
    let ym := yr + Int.fdiv m 12
    let mn := Int.emod m 12
    let dayNum := daysFromCivil ym (mn + 1) + (d - 1)
    if dayNum.natAbs ≤ 100000000 then some dayNum else none
  | _, _, _ => none

/-! ## The source functions -/

/-- Embedding of `parseDateString` (source lines 25-36): split on `/`, require exactly 3
parts, `parseInt` each, and build `new Date(year, month - 1, day)`;
`none` models the `null` returned for an invalid date. -/
def parseDateString (dateStr : String) : Option ℤ :=
  match splitSlash dateStr.data with
  | [a, b, c] =>
    jsNewDate (js_parseIntL c) ((js_parseIntL b).map (fun m => m - 1)) (js_parseIntL a)
  | _ => none

/-- Body of `formatDateInput` after the digit filter (source lines 52-57):
`slice(0, 2)`, then `'/' + slice(2, 4)` once more than 2 digits exist, then
`'/' + slice(4, 8)` once more than 4 digits exist. -/
def formatCore (digits : List Char) : List Char :=
  (if digits.length > 0 then digits.take 2 else [])
    ++ (if digits.length > 2 then '/' :: (digits.drop 2).take 2 else [])
    ++ (if digits.length > 4 then '/' :: (digits.drop 4).take 4 else [])

/-- Embedding of `formatDateInput` (source lines 47-58): remove all non-digits, then
regroup as `DD/MM/YYYY`.  The `previousValue` parameter is accepted and,
as in the source, never read. -/
def formatDateInput (value previousValue : String) : String :=
  ⟨formatCore (value.data.filter Char.isDigit)⟩

/-- Rounding to two decimal places; shared by the embedded `toFixed(2)` and
the spec-side `round2String`.  `n` is the rounded value in hundredths. -/
def fmt2 (n : ℕ) : String :=
  toString (n / 100) ++ "." ++ (if n % 100 < 10 then "0" ++ toString (n % 100) else toString (n % 100))

/-- The `10 ^ 21` bound at which `toFixed` falls back to `ToString`. -/
def tenPow21 : ℚ := ((10 ^ 21 : ℕ) : ℚ)

/-- Removal of trailing zero digits of a natural number, fuel-bounded (the
17 digits of the significand it is applied to need at most 17 steps). -/
def stripTrailingZeros : ℕ → ℕ → ℕ
  | 0, n => n
  | fuel + 1, n => if n % 10 = 0 ∧ 0 < n then stripTrailingZeros fuel (n / 10) else n

/-- Idealized ECMAScript `ToString` of a magnitude of at least 1e21 (the
branch `toFixed` delegates to): exponent notation, with at most 17
significant digits of the exact rational, trailing zeros stripped.  (The
runtime prints the shortest digit string that round-trips the double; that
notion has no counterpart under the exact-rational idealization, so the
model prints the 17 digits that suffice to determine a double.) -/
def jsBigToString (x : ℚ) : String :=
  let e := (toString (Int.toNat (Int.floor x))).length - 1
  let s17 := Int.toNat (Int.floor (x / ((10 ^ (e + 1) : ℕ) : ℚ) * ((10 ^ 17 : ℕ) : ℚ) + 1 / 2))
  let s2 := if s17 = 10 ^ 17 then 10 ^ 16 else s17
  let e2 := if s17 = 10 ^ 17 then e + 1 else e
  match (toString (stripTrailingZeros 17 s2)).data with
  | [] => "0e+0"
  | c :: rest =>
    String.mk [c] ++ (if rest = [] then "" else "." ++ String.mk rest) ++ "e+" ++ toString e2

/-- Magnitude part of `toFixed(2)` after the sign is split off: ECMAScript
returns `ToString(x)` for `x ≥ 10 ^ 21` and otherwise the fixed-point digits
of the integer closest to `100 * x`, ties toward the larger integer. -/
def toFixed2Mag (x : ℚ) : String :=
  if tenPow21 ≤ x then jsBigToString x
  else fmt2 (Int.toNat (Int.floor (100 * x + 1 / 2)))

/-- Embedding of `Number.prototype.toFixed(2)`: the sign is split off first,
then the magnitude is formatted by `toFixed2Mag` (fixed-point rounding, or
`ToString` from 1e21 up), exactly the ECMAScript algorithm; non-finite
values format as their names. -/
def jsToFixed2 : JSNum → String
  | .nan => "NaN"
  | .posInf => "Infinity"
  | .negInf => "-Infinity"
  | .num q =>
    if q < 0 then "-" ++ toFixed2Mag (-q)
    else toFixed2Mag q

/-- The fixed rate set (source line 10). -/
def interestRates : List ℚ := [3, 4, 7, 12]

/-- The validation errors of `calculateInterest`, in source order. -/
inductive CalcError where
  | missingPrincipal : CalcError
  | missingStartDate : CalcError
  | invalidPrincipal : CalcError
  | invalidDates : CalcError
  | dateOrder : CalcError
deriving DecidableEq, Repr

/-- The message set by `setError` for each validation failure. -/
def errorMessage : CalcError → String
  | .missingPrincipal => "Principal amount is required"
  | .missingStartDate => "Start date is required"
  | .invalidPrincipal => "Enter valid principal amount"
  | .invalidDates => "Enter valid dates"
  | .dateOrder => "Start date cannot be after end date"

/-- The success payload passed to `setResults` (source line 114). -/
structure CalcResult where
  dayDiff : ℤ
  data : List (ℚ × String)
  startDate : String
  endDate : String
deriving DecidableEq, Repr

instance {ε α : Type} [DecidableEq ε] [DecidableEq α] : DecidableEq (Except ε α) := fun a b =>
  match a, b with
  | .ok x, .ok y => if h : x = y then .isTrue (by rw [h]) else .isFalse (by simp [h])
  | .error x, .error y => if h : x = y then .isTrue (by rw [h]) else .isFalse (by simp [h])
  | .ok _, .error _ => .isFalse (by simp)
  | .error _, .ok _ => .isFalse (by simp)

/-- The source emptiness test: falsy (empty) string, or trimming to the empty string. -/
def jsBlank (s : String) : Bool := s.data.isEmpty || (jsTrim s.data).isEmpty

/-- The principal validation `!p || isNaN(p) || p <= 0` (source line 86). -/
def badPrincipalCheck (p : JSNum) : Bool := jsFalsy p || jsIsNaN p || jsLeZero p

/-- Embedding of `calculateInterest` (source lines 60-115) as a pure function of its three
text inputs: the first failing check yields its error, otherwise the result
record is built.  `Math.floor((e.getTime() - s.getTime()) / 86400000)` is
taken at local midnights of a fixed-offset zone, so `getTime` of a date is
its day number times 86400000. -/
def calculateInterest (principal startDate endDate : String) : Except CalcError CalcResult :=
  let principalNum := js_parseFloat principal
  let startDateObj := parseDateString startDate
  let endDateObj := parseDateString endDate
  if jsBlank principal then .error .missingPrincipal
  else if jsBlank startDate then .error .missingStartDate
  else if badPrincipalCheck principalNum then .error .invalidPrincipal
  else
    match startDateObj, endDateObj with
    | some s, some e =>
      if e < s then .error .dateOrder
      else
        let dayDiff : ℤ :=
          Int.floor (((e * 86400000 - s * 86400000 : ℤ) : ℚ) / (1000 * 60 * 60 * 24))
        let data := interestRates.map (fun rate =>
          (rate, jsToFixed2 (jsDiv (jsMul (jsMul principalNum (.num rate)) (.num (dayDiff : ℚ)))
            (.num (100 * 365)))))
        .ok ⟨dayDiff, data, startDate, endDate⟩
    | _, _ => .error .invalidDates

/-- Core of `formatDateSpec`: the regrouping of the first 8 digits as the spec words it. -/
def specCore (l : List Char) : List Char :=
  (l.take 8).take 2
    ++ (if (l.take 8).drop 2 = [] then []
        else '/' :: ((l.take 8).drop 2).take 2
          ++ (if (l.take 8).drop 4 = [] then [] else '/' :: ((l.take 8).drop 4).take 4))

/-- Modelled from the spec (§4.1 Format operation): strip every non-digit
character, keep at most 8 remaining digits, then re-insert separators —
first 2 digits as day, next 2 as month, next 4 as year, inserting a slash
between groups only once enough digits exist for that group. -/
def formatDateSpec (value : String) : String :=
  ⟨specCore (value.data.filter Char.isDigit)⟩

/-- A digit group of at most `k` characters. -/
def groupOK (k : ℕ) (g : List Char) : Prop :=
  g ≠ [] ∧ g.length ≤ k ∧ ∀ c ∈ g, c.isDigit

/-- The output pattern the spec states for formatted date text:
empty, or matching the regular expression pattern of 1-2 digits, optionally
a slash and 1-2 digits, optionally a further slash and 1-4 digits. -/
def datePatternP (l : List Char) : Prop :=
  l = [] ∨ (∃ g1, groupOK 2 g1 ∧ l = g1)
    ∨ (∃ g1 g2, groupOK 2 g1 ∧ groupOK 2 g2 ∧ l = g1 ++ '/' :: g2)
    ∨ (∃ g1 g2 g3, groupOK 2 g1 ∧ groupOK 2 g2 ∧ groupOK 4 g3 ∧ l = g1 ++ '/' :: g2 ++ '/' :: g3)


/-! ## The Format operation (claims C6, C8, C10) -/

lemma formatCore_eq_specCore (l : List Char) : formatCore l = specCore l := by
  have hA : (l.take 8).take 2 = l.take 2 := by
    rw [List.take_take]; congr 1
  have hB : (l.take 8).drop 2 = (l.drop 2).take 6 := by rw [List.drop_take]
  have hC : (l.take 8).drop 4 = (l.drop 4).take 4 := by rw [List.drop_take]
  have hBe : ((l.take 8).drop 2 = []) ↔ l.length ≤ 2 := by
    rw [hB]
    constructor
    · intro h
      rcases List.take_eq_nil_iff.mp h with h6 | hd
      · omega
      · have := List.drop_eq_nil_iff.mp hd
        omega
    · intro h
      have hd : l.drop 2 = [] := List.drop_eq_nil_of_le h
      rw [hd, List.take_nil]
  have hCe : ((l.take 8).drop 4 = []) ↔ l.length ≤ 4 := by
    rw [hC]
    constructor
    · intro h
      rcases List.take_eq_nil_iff.mp h with h4 | hd
      · omega
      · have := List.drop_eq_nil_iff.mp hd
        omega
    · intro h
      have hd : l.drop 4 = [] := List.drop_eq_nil_of_le h
      rw [hd, List.take_nil]
  have hBt : ((l.take 8).drop 2).take 2 = (l.drop 2).take 2 := by
    rw [hB, List.take_take]; congr 1
  have hCt : ((l.take 8).drop 4).take 4 = (l.drop 4).take 4 := by
    rw [hC, List.take_take]; congr 1
  unfold formatCore specCore
  rw [hA, hBt, hCt]
  simp only [hBe, hCe]
  by_cases h0 : l.length > 0
  · rw [if_pos h0]
    by_cases h2 : l.length > 2
    · by_cases h4 : l.length > 4
      · rw [if_pos h2, if_pos h4, if_neg (show ¬l.length ≤ 2 by omega),
          if_neg (show ¬l.length ≤ 4 by omega)]
        simp
      · rw [if_pos h2, if_neg h4, if_neg (show ¬l.length ≤ 2 by omega),
          if_pos (show l.length ≤ 4 by omega)]
        simp
    · rw [if_neg h2, if_neg (show ¬l.length > 4 by omega),
        if_pos (show l.length ≤ 2 by omega)]
      simp
  · rw [if_neg h0, if_neg (show ¬l.length > 2 by omega),
      if_neg (show ¬l.length > 4 by omega), if_pos (show l.length ≤ 2 by omega)]
    have hnil : l = [] := by
      cases l with
      | nil => rfl
      | cons a t => simp at h0
    subst hnil
    simp

lemma formatCore_length_le (l : List Char) : (formatCore l).length ≤ 10 := by
  unfold formatCore
  have t2 : (l.take 2).length ≤ 2 := by
    rw [List.length_take]; omega
  have d2 : ((l.drop 2).take 2).length ≤ 2 := by
    rw [List.length_take]; omega
  have d4 : ((l.drop 4).take 4).length ≤ 4 := by
    rw [List.length_take]; omega
  split_ifs <;> simp only [List.length_append, List.length_cons, List.length_nil] <;> omega

lemma formatCore_pattern (l : List Char) (h : ∀ c ∈ l, c.isDigit) :
    datePatternP (formatCore l) := by
  unfold formatCore datePatternP
  by_cases h0 : l.length > 0
  case neg =>
    rw [if_neg h0, if_neg (by omega), if_neg (by omega)]
    left; simp
  case pos =>
  have hg1 : groupOK 2 (l.take 2) := by
    refine ⟨?_, ?_, ?_⟩
    · intro hnil
      have hlen := congrArg List.length hnil
      rw [List.length_take] at hlen
      simp only [List.length_nil] at hlen
      omega
    · rw [List.length_take]; omega
    · intro c hc
      exact h c (List.mem_of_mem_take hc)
  rw [if_pos h0]
  by_cases h2 : l.length > 2
  · rw [if_pos h2]
    have hg2 : groupOK 2 ((l.drop 2).take 2) := by
      refine ⟨?_, ?_, ?_⟩
      · intro hnil
        have hlen := congrArg List.length hnil
        rw [List.length_take, List.length_drop] at hlen
        simp only [List.length_nil] at hlen
        omega
      · rw [List.length_take]; omega
      · intro c hc
        exact h c (List.mem_of_mem_drop (List.mem_of_mem_take hc))
    by_cases h4 : l.length > 4
    · rw [if_pos h4]
      have hg3 : groupOK 4 ((l.drop 4).take 4) := by
        refine ⟨?_, ?_, ?_⟩
        · intro hnil
          have hlen := congrArg List.length hnil
          rw [List.length_take, List.length_drop] at hlen
          simp only [List.length_nil] at hlen
          omega
        · rw [List.length_take]; omega
        · intro c hc
          exact h c (List.mem_of_mem_drop (List.mem_of_mem_take hc))
      right; right; right
      exact ⟨l.take 2, (l.drop 2).take 2, (l.drop 4).take 4, hg1, hg2, hg3, by simp⟩
    · rw [if_neg h4]
      right; right; left
      exact ⟨l.take 2, (l.drop 2).take 2, hg1, hg2, by simp⟩
  · rw [if_neg h2, if_neg (by omega)]
    right; left
    exact ⟨l.take 2, hg1, by simp⟩

/-- C6: for every raw input and previous value, `formatDateInput` returns
exactly the spec-described reformatting (strip non-digits, keep the first 8
digits, regroup with slashes inserted only once the following group has a
digit), the output length is at most 10, and the output is empty or matches
the pattern of 1-2 digits, optional slash and 1-2 digits, optional further
slash and 1-4 digits. -/
theorem formatDateInput_meets_spec (v p : String) :
    formatDateInput v p = formatDateSpec v ∧
      (formatDateInput v p).length ≤ 10 ∧ datePatternP (formatDateInput v p).data := by
  refine ⟨?_, ?_, ?_⟩
  · show (⟨formatCore (v.data.filter Char.isDigit)⟩ : String) = ⟨specCore (v.data.filter Char.isDigit)⟩
    rw [formatCore_eq_specCore]
  · show (formatCore (v.data.filter Char.isDigit)).length ≤ 10
    exact formatCore_length_le _
  · show datePatternP (formatCore (v.data.filter Char.isDigit))
    exact formatCore_pattern _ (fun c hc => (List.mem_filter.mp hc).2)

/-- C8: formatting the raw keystrokes `01022024` yields `01/02/2024`, and
parsing that string produces the calendar date with day 1, zero-based
month index 1 (February), and year 2024. -/
theorem format_parse_roundtrip_instance :
    formatDateInput "01022024" "" = "01/02/2024" ∧
      parseDateString "01/02/2024" = some 19754 ∧
      getDate 19754 = 1 ∧ getMonth 19754 = 1 ∧ getFullYear 19754 = 2024 := by
  refine ⟨by decide, by decide, by decide, by decide, by decide⟩

/-- C10: the result of `formatDateInput` depends only on the current raw
text; the `previousValue` argument has no influence. -/
theorem formatDateInput_ignores_previousValue (v p1 p2 : String) :
    formatDateInput v p1 = formatDateInput v p2 := rfl

/-! ## Blank inputs, whitespace, and splitting -/

lemma dropWhile_head_false {α : Type} (p : α → Bool) :
    ∀ (l : List α) (a : α) (t : List α), l.dropWhile p = a :: t → p a = false := by
  intro l
  induction l with
  | nil => intro a t h; simp [List.dropWhile] at h
  | cons c r ih =>
    intro a t h
    rw [List.dropWhile_cons] at h
    by_cases hc : p c
    · rw [if_pos hc] at h
      exact ih a t h
    · rw [if_neg hc] at h
      cases h
      simpa using hc

lemma dropWhile_nil_of_trim_nil (l : List Char) (h : jsTrim l = []) :
    l.dropWhile jsWs = [] := by
  unfold jsTrim at h
  have h1 : (l.dropWhile jsWs).reverse.dropWhile jsWs = [] := by
    cases hrv : (l.dropWhile jsWs).reverse.dropWhile jsWs with
    | nil => rfl
    | cons a t => rw [hrv] at h; simp at h
  have h2 : ∀ a ∈ (l.dropWhile jsWs).reverse, jsWs a := List.dropWhile_eq_nil_iff.mp h1
  cases hX : l.dropWhile jsWs with
  | nil => rfl
  | cons a t =>
    have ha : jsWs a = false := dropWhile_head_false jsWs l a t hX
    have hmem : a ∈ (l.dropWhile jsWs).reverse := by
      rw [hX]; simp
    rw [h2 a hmem] at ha
    cases ha

lemma jsWs_ne_slash (c : Char) (h : jsWs c = true) : ¬ c = '/' := by
  unfold jsWs at h
  simp only [Bool.or_eq_true, decide_eq_true_eq] at h
  rcases h with ((((h | h) | h) | h) | h) | h <;> subst h <;> decide

lemma splitSlash_no_slash (l : List Char) (h : ∀ c ∈ l, ¬ c = '/') :
    splitSlash l = [l] := by
  induction l with
  | nil => rfl
  | cons c t ih =>
    have hc : ¬ c = '/' := h c (List.mem_cons_self c t)
    have ih2 := ih (fun a ha => h a (List.mem_cons_of_mem c ha))
    simp [splitSlash, hc, ih2]

lemma parseFloatL_nan_of_dropWhile_nil (l : List Char) (h : l.dropWhile jsWs = []) :
    js_parseFloatL l = .nan := by
  simp only [js_parseFloatL]
  rw [h]
  decide

lemma js_parseFloat_of_blank (p : String) (h : jsBlank p = true) :
    js_parseFloat p = .nan := by
  unfold jsBlank at h
  simp only [Bool.or_eq_true, List.isEmpty_iff] at h
  have hdw : p.data.dropWhile jsWs = [] := by
    rcases h with h | h
    · rw [h]; rfl
    · exact dropWhile_nil_of_trim_nil _ h
  exact parseFloatL_nan_of_dropWhile_nil _ hdw

lemma parseDateString_of_blank (s : String) (h : jsBlank s = true) :
    parseDateString s = none := by
  unfold jsBlank at h
  simp only [Bool.or_eq_true, List.isEmpty_iff] at h
  rcases h with h | h
  · unfold parseDateString
    rw [h]
    rfl
  · have hall : ∀ c ∈ s.data, jsWs c := List.dropWhile_eq_nil_iff.mp (dropWhile_nil_of_trim_nil _ h)
    have hsp : splitSlash s.data = [s.data] :=
      splitSlash_no_slash _ (fun c hc => jsWs_ne_slash c (hall c hc))
    unfold parseDateString
    rw [hsp]

/-! ## The Parse operation (claims C7, C9) -/

/-- C7: `parseDateString` is a total function (the embedding is a Lean
function, so it never throws); it returns `none` exactly when the input does
not split into 3 slash-separated parts or the parts do not construct a
representable calendar date, and otherwise it returns a date. -/
theorem parseDateString_none_characterization (s : String) :
    (parseDateString s = none ↔
      ((splitSlash s.data).length ≠ 3 ∨
        ∃ a b c, splitSlash s.data = [a, b, c] ∧
          jsNewDate (js_parseIntL c) ((js_parseIntL b).map (fun m => m - 1))
            (js_parseIntL a) = none)) ∧
    (parseDateString s ≠ none → ∃ d, parseDateString s = some d) := by
  constructor
  · rcases hsp : splitSlash s.data with _ | ⟨a, _ | ⟨b, _ | ⟨c, _ | ⟨d, t⟩⟩⟩⟩
    · simp [parseDateString, hsp]
    · simp [parseDateString, hsp]
    · simp [parseDateString, hsp]
    · unfold parseDateString
      rw [hsp]
      constructor
      · intro h
        right
        exact ⟨a, b, c, rfl, h⟩
      · intro h
        rcases h with h | ⟨a2, b2, c2, heq, h⟩
        · simp at h
        · rcases heq with ⟨rfl, rfl, rfl⟩
          exact h
    · simp [parseDateString, hsp]
  · intro h
    cases hv : parseDateString s with
    | none => exact absurd hv h
    | some d => exact ⟨d, rfl⟩

/-- C7 witness: on the two-part string `1/2` the split has length 2, so the
parse returns the absence signal. -/
theorem parseDateString_none_characterization_witness :
    (splitSlash ("1/2" : String).data).length ≠ 3 ∧ parseDateString "1/2" = none :=
  ⟨by decide, (parseDateString_none_characterization "1/2").1.mpr (Or.inl (by decide))⟩

lemma jsNewDate_year_remap_eq (y : ℤ) (h0 : 0 ≤ y) (h99 : y ≤ 99) (M D : Option ℤ) :
    jsNewDate (some y) M D = jsNewDate (some (1900 + y)) M D := by
  have e1 : jsYearRemap y = 1900 + y := by
    unfold jsYearRemap
    rw [if_pos ⟨h0, h99⟩]
  have e2 : jsYearRemap (1900 + y) = 1900 + y := by
    unfold jsYearRemap
    rw [if_neg (by omega)]
  cases M with
  | none => rfl
  | some m =>
    cases D with
    | none => rfl
    | some d =>
      simp only [jsNewDate]
      rw [e1, e2]

/-- C9 (amended): for every 3-part date string whose year part parses to an
integer `y` between 0 and 99, the parse result is what the date constructor
builds from year `1900 + y` — the literal year is remapped before calendar
normalization (so absent month or day rollover the resulting year is
`1900 + y`, and the result can still be `none` when another part fails to
parse). -/
theorem parseDateString_two_digit_year (s : String) (a b c : List Char) (y : ℤ)
    (hsplit : splitSlash s.data = [a, b, c]) (hy : js_parseIntL c = some y)
    (h0 : 0 ≤ y) (h99 : y ≤ 99) :
    parseDateString s =
      jsNewDate (some (1900 + y)) ((js_parseIntL b).map (fun m => m - 1)) (js_parseIntL a) := by
  unfold parseDateString
  rw [hsplit]
  show jsNewDate (js_parseIntL c) ((js_parseIntL b).map (fun m => m - 1)) (js_parseIntL a) = _
  rw [hy]
  exact jsNewDate_year_remap_eq y h0 h99 _ _

/-- C9 counterexample: `01/13/24` has a year part parsing to 24 in `[0, 99]`
and parses to a date, but that date lies in year 1925 (the month index 12
rolls over), not in year `1900 + 24` as the claim requires. -/
theorem parseDateString_two_digit_year_cex :
    splitSlash ("01/13/24" : String).data = [['0', '1'], ['1', '3'], ['2', '4']] ∧
      js_parseIntL ['2', '4'] = some 24 ∧
      parseDateString "01/13/24" = some (-16436) ∧
      getFullYear (-16436) = 1925 ∧ ¬((1925 : ℤ) = 1900 + 24) := by
  refine ⟨by decide, by decide, by decide, by decide, by decide⟩

/-- C9 witness: `01/01/24` parses through the remapped year `1900 + 24` and
indeed denotes 1 January 1924 (day number -16802), not 1 January 2024. -/
theorem parseDateString_two_digit_year_witness :
    parseDateString "01/01/24" =
        jsNewDate (some (1900 + 24)) ((js_parseIntL ['0', '1']).map (fun m => m - 1))
          (js_parseIntL ['0', '1']) ∧
      parseDateString "01/01/24" = some (-16802) ∧
      getFullYear (-16802) = 1924 ∧ getMonth (-16802) = 0 ∧ getDate (-16802) = 1 :=
  ⟨parseDateString_two_digit_year "01/01/24" ['0', '1'] ['0', '1'] ['2', '4'] 24
      (by decide) (by decide) (by decide) (by decide),
    by decide, by decide, by decide, by decide⟩

/-! ## The Interest Calculator (claims C1-C5) -/

lemma bool_not_true {b : Bool} (h : ¬ b = true) : b = false := by
  cases b with
  | false => rfl
  | true => exact absurd rfl h

lemma jsMul_num (a b : ℚ) : jsMul (.num a) (.num b) = clampDouble (a * b) := rfl

lemma jsDiv_num_const (a : ℚ) :
    jsDiv (.num a) (.num (100 * 365)) = clampDouble (a / (100 * 365)) := by
  have hne : ¬((100 * 365 : ℚ) = 0) := by norm_num
  simp [jsDiv, hne]

lemma maxDoubleThreshold_pos : 0 < maxDoubleThreshold := by decide

lemma minDoubleThreshold_nonneg : 0 ≤ minDoubleThreshold := by decide

lemma clampDouble_zero : clampDouble 0 = .num 0 := by decide

lemma clampDouble_of_nonneg (x : ℚ) (h0 : 0 ≤ x) (hlt : x < maxDoubleThreshold) :
    (x ≤ minDoubleThreshold ∧ clampDouble x = .num 0) ∨
      (minDoubleThreshold < x ∧ clampDouble x = .num x) := by
  have hmax : ¬ maxDoubleThreshold ≤ x := not_le.mpr hlt
  have hneg : ¬ x ≤ -maxDoubleThreshold := by
    intro hcon
    have := maxDoubleThreshold_pos
    linarith
  by_cases hu : x ≤ minDoubleThreshold
  · left
    refine ⟨hu, ?_⟩
    unfold clampDouble
    rw [if_neg hmax, if_neg hneg,
      if_pos ⟨le_trans (by simpa using minDoubleThreshold_nonneg) h0, hu⟩]
  · right
    refine ⟨not_le.mp hu, ?_⟩
    unfold clampDouble
    rw [if_neg hmax, if_neg hneg, if_neg (fun hc => hu hc.2)]

lemma jsToFixed2_num_zero : jsToFixed2 (.num 0) = "0.00" := by decide

lemma pos_of_badPrincipalCheck_false (q : ℚ)
    (h : badPrincipalCheck (JSNum.num q) = false) : 0 < q := by
  by_contra hcon
  push_neg at hcon
  have hle : jsLeZero (JSNum.num q) = true := by simpa [jsLeZero] using hcon
  simp [badPrincipalCheck, hle] at h

/-- Value of one interest entry at day difference 0 for a finite positive
principal whose product with the rate does not overflow: the string `0.00`. -/
lemma entry_zero (q r : ℚ) (hq : 0 < q) (hr : 0 < r)
    (hov : q * r < maxDoubleThreshold) :
    jsToFixed2 (jsDiv (jsMul (jsMul (.num q) (.num r)) (.num 0)) (.num (100 * 365))) =
      "0.00" := by
  rw [jsMul_num]
  rcases clampDouble_of_nonneg (q * r) (le_of_lt (mul_pos hq hr)) hov with
    ⟨_, eA⟩ | ⟨_, eA⟩
  · rw [eA, jsMul_num, zero_mul, clampDouble_zero, jsDiv_num_const, zero_div,
      clampDouble_zero, jsToFixed2_num_zero]
  · rw [eA, jsMul_num, mul_zero, clampDouble_zero, jsDiv_num_const, zero_div,
      clampDouble_zero, jsToFixed2_num_zero]

lemma floor_dayDiff (ds de : ℤ) :
    Int.floor (((de * 86400000 - ds * 86400000 : ℤ) : ℚ) / (1000 * 60 * 60 * 24)) = de - ds := by
  have h : ((de * 86400000 - ds * 86400000 : ℤ) : ℚ) / (1000 * 60 * 60 * 24) = ((de - ds : ℤ) : ℚ) := by
    push_cast
    field_simp
    ring
  rw [h, Int.floor_intCast]

lemma badPrincipalCheck_false_of_pos (q : ℚ) (hqpos : 0 < q) :
    ¬ badPrincipalCheck (JSNum.num q) = true := by
  intro hbad
  have hsplit3 : jsFalsy (JSNum.num q) = true ∨ jsIsNaN (JSNum.num q) = true ∨
      jsLeZero (JSNum.num q) = true := by
    simpa [badPrincipalCheck, Bool.or_eq_true, or_assoc] using hbad
  rcases hsplit3 with h | h | h
  · have hq0 : q = 0 := by simpa [jsFalsy] using h
    exact hqpos.ne' hq0
  · simp [jsIsNaN] at h
  · have hq0 : q ≤ 0 := by simpa [jsLeZero] using h
    exact absurd hqpos (not_lt.mpr hq0)

/-- Reduction of `calculateInterest` on validated inputs: positive finite
principal, two parsed dates in order. -/
lemma calculateInterest_ok (p s e : String) (q : ℚ) (ds de : ℤ)
    (hq : js_parseFloat p = .num q) (hqpos : 0 < q)
    (hs : parseDateString s = some ds) (he : parseDateString e = some de)
    (hle : ds ≤ de) :
    calculateInterest p s e =
      .ok ⟨de - ds,
        interestRates.map (fun rate =>
          (rate, jsToFixed2 (jsDiv (jsMul (jsMul (.num q) (.num rate))
            (.num ((de - ds : ℤ) : ℚ))) (.num (100 * 365))))),
        s, e⟩ := by
  have hbp : ¬ jsBlank p = true := by
    intro hb
    rw [js_parseFloat_of_blank p hb] at hq
    cases hq
  have hbs : ¬ jsBlank s = true := by
    intro hb
    rw [parseDateString_of_blank s hb] at hs
    cases hs
  simp only [calculateInterest, hq, hs, he]
  rw [if_neg hbp, if_neg hbs, if_neg (badPrincipalCheck_false_of_pos q hqpos),
    if_neg (not_lt.mpr hle), floor_dayDiff]

/-- Inversion of a successful `calculateInterest`: the dates parsed, are in
order, and the result record has the computed shape. -/
lemma calculateInterest_ok_inv (p s e : String) (res : CalcResult)
    (h : calculateInterest p s e = .ok res) :
    ∃ ds de, parseDateString s = some ds ∧ parseDateString e = some de ∧ ds ≤ de ∧
      badPrincipalCheck (js_parseFloat p) = false ∧
      res.dayDiff = de - ds ∧
      res.data = interestRates.map (fun rate =>
        (rate, jsToFixed2 (jsDiv (jsMul (jsMul (js_parseFloat p) (.num rate))
          (.num ((de - ds : ℤ) : ℚ))) (.num (100 * 365))))) := by
  simp only [calculateInterest] at h
  by_cases h1 : jsBlank p
  · rw [if_pos h1] at h
    cases h
  rw [if_neg h1] at h
  by_cases h2 : jsBlank s
  · rw [if_pos h2] at h
    cases h
  rw [if_neg h2] at h
  by_cases h3 : badPrincipalCheck (js_parseFloat p)
  · rw [if_pos h3] at h
    cases h
  rw [if_neg h3] at h
  cases hs : parseDateString s with
  | none =>
    rw [hs] at h
    simp at h
  | some ds =>
    cases he : parseDateString e with
    | none =>
      rw [hs, he] at h
      simp at h
    | some de =>
      rw [hs, he] at h
      simp only [] at h
      by_cases h4 : de < ds
      · rw [if_pos h4] at h
        cases h
      · rw [if_neg h4] at h
        rw [floor_dayDiff] at h
        cases h
        exact ⟨ds, de, rfl, rfl, not_lt.mp h4, bool_not_true h3, rfl, rfl⟩

/-- C1: when the principal text parses to a finite positive number and both
date texts parse with start not after end, `calculateInterest` succeeds, the
day difference is nonnegative, and the entries are exactly the four rates in
the fixed order 3, 4, 7, 12. -/
theorem calculateInterest_success (p s e : String) (q : ℚ) (ds de : ℤ)
    (hq : js_parseFloat p = .num q) (hqpos : 0 < q)
    (hs : parseDateString s = some ds) (he : parseDateString e = some de)
    (hle : ds ≤ de) :
    ∃ res, calculateInterest p s e = .ok res ∧ 0 ≤ res.dayDiff ∧
      res.data.map Prod.fst = [3, 4, 7, 12] ∧ res.data.length = 4 := by
  refine ⟨_, calculateInterest_ok p s e q ds de hq hqpos hs he hle, ?_, ?_, ?_⟩
  · show (0 : ℤ) ≤ de - ds
    omega
  · simp [interestRates]
  · simp [interestRates]

/-- C1 witness at principal 1000 over January 2024. -/
theorem calculateInterest_success_witness :
    ∃ res, calculateInterest "1000" "01/01/2024" "31/01/2024" = .ok res ∧
      0 ≤ res.dayDiff ∧ res.data.map Prod.fst = [3, 4, 7, 12] ∧ res.data.length = 4 :=
  calculateInterest_success "1000" "01/01/2024" "31/01/2024" 1000 19723 19753
    (by decide) (by decide) (by decide) (by decide) (by decide)

/-- C3 (amended): on every successful calculation the day difference is the
whole-day distance from the parsed start to the parsed end date; when the
two texts parse to the same date the day difference is 0, and every entry
whose rate `r` keeps the product `q * r` of the finite-parsing principal
below the double overflow threshold is `0.00`.  (Both provisos are forced:
principal `Infinity` with equal dates succeeds with `NaN` entries because
its parse is non-finite, and so does `1e308`, whose finite parse overflows
at `q * r` — see the counterexample.) -/
theorem calculateInterest_dayDiff (p s e : String) (res : CalcResult)
    (h : calculateInterest p s e = .ok res) :
    (∀ ds de, parseDateString s = some ds → parseDateString e = some de →
      res.dayDiff = de - ds) ∧
    (parseDateString s = parseDateString e → res.dayDiff = 0) ∧
    (∀ q, js_parseFloat p = .num q → parseDateString s = parseDateString e →
      ∀ x ∈ res.data, q * x.1 < maxDoubleThreshold → x.2 = "0.00") := by
  obtain ⟨ds, de, hs, he, hle, hbp, hdd, hdata⟩ := calculateInterest_ok_inv p s e res h
  refine ⟨?_, ?_, ?_⟩
  · intro ds2 de2 hs2 he2
    rw [hs] at hs2
    rw [he] at he2
    cases hs2
    cases he2
    exact hdd
  · intro heq
    rw [hs, he] at heq
    injection heq with hde
    omega
  · intro q hq heq x hx hov
    rw [hq] at hbp
    have hq0 : 0 < q := pos_of_badPrincipalCheck_false q hbp
    rw [hs, he] at heq
    injection heq with hde
    subst hde
    rw [hdata, hq] at hx
    simp only [sub_self, Int.cast_zero] at hx
    simp only [interestRates, List.map_cons, List.map_nil, List.mem_cons,
      List.not_mem_nil, or_false] at hx
    rcases hx with rfl | rfl | rfl | rfl <;>
      exact entry_zero q _ hq0 (by norm_num) hov

/-- C3 counterexample: with equal start and end dates, both the non-finite
principal `Infinity` and the finite-parsing principal `1e308` (whose
per-rate product overflows to Infinity) succeed with day difference 0 but
entries `NaN` — Infinity times 0 — instead of `0.00`. -/
theorem calculateInterest_dayDiff_cex :
    calculateInterest "Infinity" "01/01/2024" "01/01/2024" =
        .ok ⟨0, [(3, "NaN"), (4, "NaN"), (7, "NaN"), (12, "NaN")],
          "01/01/2024", "01/01/2024"⟩ ∧
      js_parseFloat "1e308" = JSNum.num (((10 ^ 308 : ℕ) : ℚ)) ∧
      calculateInterest "1e308" "01/01/2024" "01/01/2024" =
        .ok ⟨0, [(3, "NaN"), (4, "NaN"), (7, "NaN"), (12, "NaN")],
          "01/01/2024", "01/01/2024"⟩ ∧
      parseDateString "01/01/2024" = parseDateString "01/01/2024" ∧
      ¬("NaN" = "0.00") :=
  ⟨by decide, by decide, by decide, rfl, by decide⟩

/-- C3 witness: 01/01/2024 to 31/01/2024 gives day difference 30. -/
theorem calculateInterest_dayDiff_witness :
    ∃ res, calculateInterest "1000" "01/01/2024" "31/01/2024" = .ok res ∧
      res.dayDiff = 19753 - 19723 := by
  have hcalc : calculateInterest "1000" "01/01/2024" "31/01/2024" =
      .ok ⟨30, [(3, "2.47"), (4, "3.29"), (7, "5.75"), (12, "9.86")],
        "01/01/2024", "31/01/2024"⟩ := by
    decide
  exact ⟨_, hcalc,
    (calculateInterest_dayDiff "1000" "01/01/2024" "31/01/2024" _ hcalc).1 19723 19753
      (by decide) (by decide)⟩

/-- C4: the five validation checks run in the fixed source order — blank
principal, blank start date, invalid principal, unparseable dates, start
after end — the first failing check alone determines the error (each
characterization below requires all earlier checks to have passed), and in
particular blank principal together with blank start date yields the
missing-principal error.  On an error no result record exists (the `Except`
is `.error`). -/
theorem calculateInterest_validation_order (p s e : String) :
    (calculateInterest p s e = .error .missingPrincipal ↔ jsBlank p = true) ∧
    (calculateInterest p s e = .error .missingStartDate ↔
      jsBlank p = false ∧ jsBlank s = true) ∧
    (calculateInterest p s e = .error .invalidPrincipal ↔
      jsBlank p = false ∧ jsBlank s = false ∧
        badPrincipalCheck (js_parseFloat p) = true) ∧
    (calculateInterest p s e = .error .invalidDates ↔
      jsBlank p = false ∧ jsBlank s = false ∧
        badPrincipalCheck (js_parseFloat p) = false ∧
        (parseDateString s = none ∨ parseDateString e = none)) ∧
    (calculateInterest p s e = .error .dateOrder ↔
      jsBlank p = false ∧ jsBlank s = false ∧
        badPrincipalCheck (js_parseFloat p) = false ∧
        ∃ ds de, parseDateString s = some ds ∧ parseDateString e = some de ∧ de < ds) ∧
    (jsBlank p = true ∧ jsBlank s = true →
      calculateInterest p s e = .error .missingPrincipal) := by
  by_cases h1 : jsBlank p
  · have hc : calculateInterest p s e = .error .missingPrincipal := by
      simp only [calculateInterest]
      rw [if_pos h1]
    refine ⟨iff_of_true hc h1, ?_, ?_, ?_, ?_, fun _ => hc⟩ <;>
      exact iff_of_false (by simp [hc]) (by simp [h1])
  · have h1f : jsBlank p = false := bool_not_true h1
    by_cases h2 : jsBlank s
    · have hc : calculateInterest p s e = .error .missingStartDate := by
        simp only [calculateInterest]
        rw [if_neg h1, if_pos h2]
      refine ⟨iff_of_false (by simp [hc]) (by simp [h1f]),
        iff_of_true hc ⟨h1f, h2⟩,
        iff_of_false (by simp [hc]) (by simp [h2]),
        iff_of_false (by simp [hc]) (by simp [h2]),
        iff_of_false (by simp [hc]) (by simp [h2]),
        by simp [h1f]⟩
    · have h2f : jsBlank s = false := bool_not_true h2
      by_cases h3 : badPrincipalCheck (js_parseFloat p)
      · have hc : calculateInterest p s e = .error .invalidPrincipal := by
          simp only [calculateInterest]
          rw [if_neg h1, if_neg h2, if_pos h3]
        refine ⟨iff_of_false (by simp [hc]) (by simp [h1f]),
          iff_of_false (by simp [hc]) (by simp [h2f]),
          iff_of_true hc ⟨h1f, h2f, h3⟩,
          iff_of_false (by simp [hc]) (by simp [h3]),
          iff_of_false (by simp [hc]) (by simp [h3]),
          by simp [h1f]⟩
      · have h3f : badPrincipalCheck (js_parseFloat p) = false := bool_not_true h3
        cases hs : parseDateString s with
        | none =>
          have hc : calculateInterest p s e = .error .invalidDates := by
            simp only [calculateInterest, hs]
            rw [if_neg h1, if_neg h2, if_neg h3]
          refine ⟨iff_of_false (by simp [hc]) (by simp [h1f]),
            iff_of_false (by simp [hc]) (by simp [h2f]),
            iff_of_false (by simp [hc]) (by simp [h3f]),
            iff_of_true hc ⟨h1f, h2f, h3f, Or.inl rfl⟩,
            iff_of_false (by simp [hc]) (by simp [hs]),
            by simp [h1f]⟩
        | some ds =>
          cases he : parseDateString e with
          | none =>
            have hc : calculateInterest p s e = .error .invalidDates := by
              simp only [calculateInterest, hs, he]
              rw [if_neg h1, if_neg h2, if_neg h3]
            refine ⟨iff_of_false (by simp [hc]) (by simp [h1f]),
              iff_of_false (by simp [hc]) (by simp [h2f]),
              iff_of_false (by simp [hc]) (by simp [h3f]),
              iff_of_true hc ⟨h1f, h2f, h3f, Or.inr rfl⟩,
              iff_of_false (by simp [hc]) (by simp [hs, he]),
              by simp [h1f]⟩
          | some de =>
            by_cases h4 : de < ds
            · have hc : calculateInterest p s e = .error .dateOrder := by
                simp only [calculateInterest, hs, he]
                rw [if_neg h1, if_neg h2, if_neg h3, if_pos h4]
              refine ⟨iff_of_false (by simp [hc]) (by simp [h1f]),
                iff_of_false (by simp [hc]) (by simp [h2f]),
                iff_of_false (by simp [hc]) (by simp [h3f]),
                iff_of_false (by simp [hc]) (by simp [hs, he]),
                iff_of_true hc ⟨h1f, h2f, h3f, ds, de, rfl, rfl, h4⟩,
                by simp [h1f]⟩
            · have hok : ∀ err : CalcError, ¬ calculateInterest p s e = .error err := by
                intro err hcontra
                simp only [calculateInterest, hs, he] at hcontra
                rw [if_neg h1, if_neg h2, if_neg h3, if_neg h4] at hcontra
                cases hcontra
              refine ⟨iff_of_false (hok _) (by simp [h1f]),
                iff_of_false (hok _) (by simp [h2f]),
                iff_of_false (hok _) (by simp [h3f]),
                iff_of_false (hok _) (by simp [hs, he]),
                iff_of_false (hok _) (by simp [hs, he, h4]),
                by simp [h1f]⟩

/-- C4 witness: with principal and start date both empty (end date
arbitrary), the error is the missing-principal one. -/
theorem calculateInterest_validation_order_witness :
    calculateInterest "" "" "x" = .error .missingPrincipal :=
  (calculateInterest_validation_order "" "" "x").2.2.2.2.2 ⟨by decide, by decide⟩

/-- C5 (amended): a non-blank principal (with non-blank start date, so that
the earlier checks pass) whose parse is `NaN`, negative Infinity, or a value
at most 0 produces the error `Enter valid principal amount` and no result.
(The original claim also covered every non-finite parse; that fails for
positive Infinity, which passes the check in the source — see the
counterexample.) -/
theorem calculateInterest_invalid_principal (p s e : String)
    (hp : jsBlank p = false) (hs : jsBlank s = false)
    (hbad : js_parseFloat p = .nan ∨ js_parseFloat p = .negInf ∨
      ∃ q, q ≤ 0 ∧ js_parseFloat p = .num q) :
    calculateInterest p s e = .error .invalidPrincipal := by
  have hb : badPrincipalCheck (js_parseFloat p) = true := by
    rcases hbad with h | h | ⟨q, hq, h⟩
    · rw [h]; rfl
    · rw [h]; rfl
    · rw [h]
      have hle0 : jsLeZero (JSNum.num q) = true := by simpa [jsLeZero] using hq
      simp [badPrincipalCheck, hle0]
  simp only [calculateInterest]
  rw [if_neg (by simp [hp]), if_neg (by simp [hs]), if_pos hb]

/-- C5 counterexample: `Infinity` is a non-blank principal text that does
not parse to a finite number greater than 0, yet the calculation succeeds
instead of producing the invalid-principal error. -/
theorem calculateInterest_invalid_principal_cex :
    jsBlank "Infinity" = false ∧ js_parseFloat "Infinity" = JSNum.posInf ∧
      calculateInterest "Infinity" "01/01/2024" "02/01/2024" =
        .ok ⟨1, [(3, "Infinity"), (4, "Infinity"), (7, "Infinity"), (12, "Infinity")],
          "01/01/2024", "02/01/2024"⟩ ∧
      ¬ calculateInterest "Infinity" "01/01/2024" "02/01/2024" =
          .error .invalidPrincipal :=
  ⟨by decide, by decide, by decide, by decide⟩

/-- C5 witness: the non-blank, non-positive principal `-5` produces the
invalid-principal error (before the unparseable end date is even looked at). -/
theorem calculateInterest_invalid_principal_witness :
    calculateInterest "-5" "01/01/2024" "x" = .error .invalidPrincipal :=
  calculateInterest_invalid_principal "-5" "01/01/2024" "x" (by decide) (by decide)
    (Or.inr (Or.inr ⟨-5, by norm_num, by decide⟩))
